import Mathlib

/-!
Verification of the real-time audio bridge of `voip-client-python`.

Shallow embedding of the audio-bridge subsystem:
* `src/voip_client/whisper_assistant.py` (segmented pipeline:
  VAD, STT/chat/TTS protocol, linear-interpolation resampler);
* `src/voip_client/app_ai_realtime_call.py` (streaming pipeline:
  frame reader stages, pending-response queue, module-level resampler);
* `src/voip_client/openai_realtime.py` (streaming bridge queue interface).

Conventions of the embedding:
* PCM byte strings are `List Byte` with `Byte := Fin 256`.
* Python `float` arithmetic is modelled by exact rational arithmetic `ℚ`
  (all concrete inputs used in counterexamples and witnesses only involve
  dyadic values on which IEEE doubles are exact).
* Python `int(x)` (truncation toward zero) is `pyTrunc`; the one-argument
  `round(x)` (round half to even) is `pyRound`.
* Fallible library calls that the source catches (`struct.unpack` on an
  odd-length buffer, `array.array("h", ...)` on an odd-length buffer) are
  modelled by the branch the `except` handler takes.
-/

/-- A byte, as stored in a Python `bytes` object. -/
abbrev Byte := Fin 256

/-- Reduce a natural number into a byte (`n % 256`). -/
def mkByte (n : ℕ) : Byte := ⟨n % 256, Nat.mod_lt _ (by norm_num)⟩

/-- Little-endian decoding of one signed 16-bit sample, as done by
`struct.unpack("<...h", ...)` / `array.array("h", ...)`. -/
def decodeSample (lo hi : Byte) : ℤ :=
  let u : ℤ := (lo : ℤ) + 256 * (hi : ℤ)
  if u < 32768 then u else u - 65536

/-- Little-endian encoding of one signed 16-bit sample, as done by
`struct.pack("<...h", ...)` (two's complement, low byte first). -/
def encodeSample (s : ℤ) : List Byte :=
  let u : ℕ := (s % 65536).toNat
  [mkByte (u % 256), mkByte (u / 256)]

/-- Decode an even-length PCM16 byte string into its sample list
(`struct.unpack(f"<{num_samples}h", pcm_data)`). -/
def unpackSamples : List Byte → List ℤ
  | lo :: hi :: rest => decodeSample lo hi :: unpackSamples rest
  | _ => []

/-- Encode a sample list back into bytes (`struct.pack(f"<{n}h", *samples)`). -/
def packSamples (samples : List ℤ) : List Byte :=
  (samples.map encodeSample).flatten

/-- Python `int(x)`: truncation toward zero. -/
def pyTrunc (q : ℚ) : ℤ := if 0 ≤ q then ⌊q⌋ else ⌈q⌉

/-- Python one-argument `round(x)`: round half to even. -/
def pyRound (q : ℚ) : ℤ :=
  let f := ⌊q⌋
  let r := q - f
  if r < 1/2 then f
  else if 1/2 < r then f + 1
  else if Even f then f else f + 1

/-- The source-index / interpolation-weight computation shared verbatim by the
two `_resample_pcm` implementations (`whisper_assistant.py` lines 456-469 and
`app_ai_realtime_call.py` lines 124-137): for output index `i` compute
`src_idx = i / ratio`, `idx0 = int(src_idx)`, `idx1 = idx0 + 1`, then clamp at
the right boundary (`idx0 >= num_samples - 1` forces both indices to the last
sample with zero fractional weight), otherwise bound the indices and take
`frac = src_idx - idx0`.  Returns `(idx0, idx1, frac)`. -/
def interpIdx (n : ℕ) (ratio : ℚ) (i : ℕ) : ℤ × ℤ × ℚ :=
  let srcIdx : ℚ := (i : ℚ) / ratio
  let idx0 : ℤ := pyTrunc srcIdx
  if (n : ℤ) - 1 ≤ idx0 then ((n : ℤ) - 1, (n : ℤ) - 1, 0)
  else (max 0 idx0, min (idx0 + 1) ((n : ℤ) - 1), srcIdx - ((max 0 idx0 : ℤ) : ℚ))

/-- One output sample of `WhisperAssistantBridge._resample_pcm`:
`sample = int(samples[idx0] * (1 - frac) + samples[idx1] * frac)` then
`sample = max(-32768, min(32767, sample))`. -/
def interpSampleW (samples : List ℤ) (n : ℕ) (ratio : ℚ) (i : ℕ) : ℤ :=
  let t := interpIdx n ratio i
  let s0 := samples.getD t.1.toNat 0
  let s1 := samples.getD t.2.1.toNat 0
  let v := pyTrunc ((s0 : ℚ) * (1 - t.2.2) + (s1 : ℚ) * t.2.2)
  max (-32768) (min 32767 v)

/-- One output sample of the module-level `_resample_pcm` in
`app_ai_realtime_call.py`: `interpolated = val0 + frac * (val1 - val0)` then
`int(round(interpolated))` — round half to even, and no clamping. -/
def interpSampleA (samples : List ℤ) (n : ℕ) (ratio : ℚ) (i : ℕ) : ℤ :=
  let t := interpIdx n ratio i
  let s0 := samples.getD t.1.toNat 0
  let s1 := samples.getD t.2.1.toNat 0
  pyRound ((s0 : ℚ) + t.2.2 * ((s1 : ℚ) - (s0 : ℚ)))

namespace WhisperAssistantBridge

/-- Model of `WhisperAssistantBridge._resample_pcm` (`whisper_assistant.py` 418-478).
Branches, in source order: equal rates pass through; fewer than 2 bytes pass
through; `struct.unpack` on an odd-length buffer raises `struct.error`, caught
and passed through; a zero output length passes through; otherwise linear
interpolation with truncation toward zero and clamping to the int16 range.
(The source's `num_samples == 0` and `not out_samples` checks are dead once
`len(pcm_data) >= 2` and `out_len >= 1` hold, so they do not appear.) -/
def resample_pcm (pcm : List Byte) (srcRate dstRate : ℕ) : List Byte :=
  if srcRate = dstRate then pcm
  else if pcm.length < 2 then pcm
  else if pcm.length % 2 ≠ 0 then pcm
  else
    let n := pcm.length / 2
    let samples := unpackSamples pcm
    let ratio : ℚ := (dstRate : ℚ) / (srcRate : ℚ)
    let outLen := (pyTrunc ((n : ℚ) * ratio)).toNat
    if outLen = 0 then pcm
    else packSamples ((List.range outLen).map (interpSampleW samples n ratio))

end WhisperAssistantBridge

namespace AppAiRealtimeCall

/-- The module-level `_resample_pcm` of `app_ai_realtime_call.py` (88-146).
Identical branch structure to `WhisperAssistantBridge._resample_pcm`; the only
difference is the final per-sample arithmetic (`interpSampleA`). -/
def resample_pcm (pcm : List Byte) (srcRate dstRate : ℕ) : List Byte :=
  if srcRate = dstRate then pcm
  else if pcm.length < 2 then pcm
  else if pcm.length % 2 ≠ 0 then pcm
  else
    let n := pcm.length / 2
    let samples := unpackSamples pcm
    let ratio : ℚ := (dstRate : ℚ) / (srcRate : ℚ)
    let outLen := (pyTrunc ((n : ℚ) * ratio)).toNat
    if outLen = 0 then pcm
    else packSamples ((List.range outLen).map (interpSampleA samples n ratio))

end AppAiRealtimeCall

/-- Model of `send_pcm` of `OpenAIRealtimeBridge` (openai_realtime.py 106-118) and of
`WhisperAssistantBridge` (whisper_assistant.py 141-152) — the two bodies are
identical up to the queue bound (`maxsize` 100 resp. 200): empty data returns
immediately; otherwise `put_nowait`, dropping the frame if the queue is full.
The state of the bridge's stop event is passed in explicitly (`stopSet`) so
that theorems can speak about calls made after `stop()`: the source consults
only `data` and the queue, never the stop event. -/
def send_pcm (maxsize : ℕ) (stopSet : Bool) (inputQ : List (List Byte))
    (data : List Byte) : List (List Byte) :=
  if data = [] then inputQ
  else if inputQ.length < maxsize then inputQ ++ [data]
  else inputQ

/-- Model of `recv_pcm` of both bridges (openai_realtime.py 120-129,
whisper_assistant.py 154-163): `Queue.get(timeout=...)`, returning `None` on
`Empty`.  Modelled at the queue level: returns the front element (if any) and
the remaining queue.  As with `send_pcm`, the stop event is passed in to show
it is never consulted. -/
def recv_pcm (stopSet : Bool) (outputQ : List (List Byte)) :
    Option (List Byte) × List (List Byte) :=
  match outputQ with
  | [] => (none, [])
  | x :: xs => (some x, xs)

/-- Model of `Queue.put_nowait` on a queue bounded by `maxsize`, with the caller's
`except: pass` drop-on-full policy. -/
def putNowait (maxsize : ℕ) (q : List (List Byte)) (x : List Byte) :
    List (List Byte) :=
  if q.length < maxsize then q ++ [x] else q

/-- The slicing loop `for i in range(0, len(pcm), chunk_size)` of
`WhisperAssistantBridge._text_to_speech`: split a byte string into
`chunkSize`-byte pieces, the last possibly shorter.  (`chunkSize = 0` would
raise `ValueError` in Python, caught by the surrounding handler which then
enqueues nothing; all call sites have `chunkSize = rate * 2 // 50 >= 1`.) -/
def chunksOf (chunkSize : ℕ) : List Byte → List (List Byte)
  | [] => []
  | a :: l =>
    if chunkSize = 0 then []
    else (a :: l).take chunkSize :: chunksOf chunkSize ((a :: l).drop chunkSize)
termination_by l => l.length
decreasing_by simp [List.length_drop]; omega

/-- Python `str.strip()` (with no argument): remove leading and trailing
whitespace.  Defined structurally on the character list so that it evaluates
inside the kernel (Lean's own `String.trim` does not). -/
def pyStrip (s : String) : String :=
  ⟨((s.data.dropWhile Char.isWhitespace).reverse.dropWhile
      Char.isWhitespace).reverse⟩

/-- Conversation roles of `WhisperAssistantBridge._messages` entries. -/
inductive Role where
  | system
  | user
  | assistant
deriving DecidableEq

/-- One conversation turn (`{"role": ..., "content": ...}`). -/
structure ChatMsg where
  role : Role
  content : String
deriving DecidableEq

/-- The three network calls of the segmented pipeline, abstracted as pure
result functions (the bridge only observes their return values):
`transcribeResult` is what `_transcribe` returns (already stripped, `""` on
error), `chatResult` what `_chat_completion` returns for a given turn history
(already stripped, `""` on error or empty content), `ttsResult` the raw
24 kHz PCM body `_text_to_speech` receives for a given text. -/
structure ProviderOracle where
  transcribeResult : List Byte → String
  chatResult : List ChatMsg → String
  ttsResult : String → List Byte

/-- Mutable state of `WhisperAssistantBridge` touched by `_process_speech`:
the conversation history `_messages` and the output queue `_output_q`
(maxsize 500). -/
structure BridgeState where
  messages : List ChatMsg
  outputQ : List (List Byte)
deriving DecidableEq

/-- Result of one `_process_speech` invocation: the new bridge state, and
which provider calls were made (the transcription call always happens). -/
structure ProcessOut where
  state : BridgeState
  chatCalled : Bool
  ttsCalled : Bool
deriving DecidableEq

namespace WhisperAssistantBridge

/-- Model of `WhisperAssistantBridge._text_to_speech` (whisper_assistant.py 388-416):
resample the provider's 24 kHz PCM to the bridge sample rate and enqueue it in
`rate * 2 // 50`-byte chunks into the output queue (maxsize 500), dropping
chunks if the queue is full. -/
def text_to_speech (o : ProviderOracle) (rate : ℕ) (q : List (List Byte))
    (text : String) : List (List Byte) :=
  let pcm24 := o.ttsResult text
  let resampled := resample_pcm pcm24 24000 rate
  (chunksOf (rate * 2 / 50) resampled).foldl (putNowait 500) q

/-- Model of `WhisperAssistantBridge._process_speech` (whisper_assistant.py 276-333):
1. transcribe; empty or whitespace-only transcript → return (nothing changed);
2. append the user turn;
3. chat completion over the full history; empty response → return
   (the user turn stays appended);
4. append the assistant turn;
5. synthesize and enqueue the audio.
(The recording-saving branches touch only the filesystem, never the
conversation or the queues, and are omitted.) -/
def process_speech (o : ProviderOracle) (rate : ℕ) (st : BridgeState)
    (audio : List Byte) : ProcessOut :=
  let transcript := o.transcribeResult audio
  if transcript = "" ∨ pyStrip transcript = "" then ⟨st, false, false⟩
  else
    let msgs1 := st.messages ++ [⟨Role.user, transcript⟩]
    let response := o.chatResult msgs1
    if response = "" then ⟨⟨msgs1, st.outputQ⟩, true, false⟩
    else
      let msgs2 := msgs1 ++ [⟨Role.assistant, response⟩]
      ⟨⟨msgs2, text_to_speech o rate st.outputQ response⟩, true, true⟩

end WhisperAssistantBridge

/-- VAD configuration of `WhisperAssistantBridge`.  The source classifies a
chunk as silent iff `rms <= 0` or `20 * log10(rms / 32768) < threshold_db`
(whisper_assistant.py 242-247); since `log10` is strictly monotone this is
exactly `rms^2 < (32768 * 10^(threshold_db / 20))^2`, and the embedding
carries that squared linear cutoff `silenceCutoffSq` instead of the dB value
(so the classifier stays decidable).  The default `threshold_db = -40.0`
corresponds to `silenceCutoffSq = (8192 / 25)^2` (i.e. `327.68^2`). -/
structure VadConfig where
  sampleRate : ℕ
  silenceDurationMs : ℚ
  silenceCutoffSq : ℚ

/-- Squared linear cutoff for the default `-40.0` dBFS threshold:
`(32768 * 10^(-2))^2 = 327.68^2 = (8192/25)^2`. -/
def defaultSilenceCutoffSq : ℚ := (8192 / 25) ^ 2

/-- VAD state of `WhisperAssistantBridge`: `_speech_detected`,
`_silence_frames` (a float accumulator of milliseconds), `_audio_buffer`. -/
structure VadState where
  speechDetected : Bool
  silenceFrames : ℚ
  audioBuffer : List Byte
deriving DecidableEq

namespace WhisperAssistantBridge

/-- Mean square of the PCM16 samples of a chunk
(`WhisperAssistantBridge._compute_rms` computes `sqrt` of this;
whisper_assistant.py 229-240).  Fewer than 2 bytes → 0; `array.array("h", pcm)`
on an odd-length buffer raises, caught → 0. -/
def computeMeanSq (pcm : List Byte) : ℚ :=
  if pcm.length < 2 then 0
  else if pcm.length % 2 ≠ 0 then 0
  else
    let samples := unpackSamples pcm
    (((samples.map fun s => s * s).sum : ℤ) : ℚ) / (samples.length : ℚ)

/-- Model of `WhisperAssistantBridge._is_silence` composed with `_compute_rms`, phrased
on the squared RMS (see `VadConfig`): the chunk is silent iff its mean-square
energy is below the squared linear cutoff.  (`rms <= 0` → silent is subsumed:
`0 < silenceCutoffSq` for every dB threshold.) -/
def is_silent_chunk (cfg : VadConfig) (chunk : List Byte) : Bool :=
  decide (computeMeanSq chunk < cfg.silenceCutoffSq)

/-- Model of `WhisperAssistantBridge._process_vad` (whisper_assistant.py 249-274).
Returns the updated VAD state and the should-process flag. -/
def process_vad (cfg : VadConfig) (v : VadState) (chunk : List Byte) :
    VadState × Bool :=
  if ¬ is_silent_chunk cfg chunk then
    (⟨true, 0, v.audioBuffer ++ chunk⟩, false)
  else if v.speechDetected then
    let frameDurationMs : ℚ :=
      (chunk.length : ℚ) / 2 / (cfg.sampleRate : ℚ) * 1000
    let sf := v.silenceFrames + frameDurationMs
    (⟨v.speechDetected, sf, v.audioBuffer ++ chunk⟩,
      decide (cfg.silenceDurationMs ≤ sf))
  else (v, false)

end WhisperAssistantBridge

/-- Full state of the `WhisperAssistantBridge._main` loop: VAD state, bridge
state (conversation + output queue), and the `_processing` single-flight
flag. -/
structure MainState where
  vad : VadState
  bridge : BridgeState
  processing : Bool
deriving DecidableEq

/-- Observable outcome of one `_main` loop iteration: the new state, the
segment extracted from the VAD buffer (if the trigger fired), the audio
passed to transcription (if any), and which downstream calls were made. -/
structure StepOut where
  state : MainState
  extracted : Option (List Byte)
  sttCalled : Option (List Byte)
  chatCalled : Bool
  ttsCalled : Bool
deriving DecidableEq

namespace WhisperAssistantBridge

/-- One iteration of the `WhisperAssistantBridge._main` loop
(whisper_assistant.py 195-227) on one dequeued chunk: skip empty chunks; run
the VAD; on a trigger (with `_processing` false) extract the buffered audio,
reset the VAD state, and process the segment only if
`len(audio_data) > sample_rate * 2 * 0.3` (strictly more than 300 ms) —
otherwise the segment is consumed silently.  `_processing` is set around the
`_process_speech` await and reset in the `finally`, so it is false again in
the post-state. -/
def main_step (o : ProviderOracle) (cfg : VadConfig) (st : MainState)
    (chunk : List Byte) : StepOut :=
  if chunk = [] then ⟨st, none, none, false, false⟩
  else
    let pv := process_vad cfg st.vad chunk
    if pv.2 && !st.processing then
      let audio := pv.1.audioBuffer
      let vReset : VadState := ⟨false, 0, []⟩
      if (cfg.sampleRate : ℚ) * 2 * (3 / 10) < (audio.length : ℚ) then
        let po := process_speech o cfg.sampleRate st.bridge audio
        ⟨⟨vReset, po.state, false⟩, some audio, some audio,
          po.chatCalled, po.ttsCalled⟩
      else
        ⟨⟨vReset, st.bridge, st.processing⟩, some audio, none, false, false⟩
    else
      ⟨⟨pv.1, st.bridge, st.processing⟩, none, none, false, false⟩

/-- Fold `main_step` over a list of incoming chunks. -/
def run_main (o : ProviderOracle) (cfg : VadConfig) :
    MainState → List (List Byte) → MainState
  | st, [] => st
  | st, c :: cs => run_main o cfg (main_step o cfg st c).state cs

/-- The segments extracted from the VAD buffer while feeding a list of chunks
through the `_main` loop (in order). -/
def vadSegments (o : ProviderOracle) (cfg : VadConfig) :
    MainState → List (List Byte) → List (List Byte)
  | _, [] => []
  | st, c :: cs =>
    let out := main_step o cfg st c
    out.extracted.toList ++ vadSegments o cfg out.state cs

/-- The bridge state right after `__init__`: system message only, empty
queues, idle VAD. -/
def initState (sysMsg : String) : MainState :=
  ⟨⟨false, 0, []⟩, ⟨[⟨Role.system, sysMsg⟩], []⟩, false⟩

end WhisperAssistantBridge

namespace AppAiRealtimeCall

/-- The size-correction step of `AiRealtimeCall._audio_io_loop`
(app_ai_realtime_call.py 419-426 and 435-442): a resampled frame whose length
deviates from the expected stage size is truncated if too long, or padded with
`b'\x00\x00' * (padding // 2)` if non-empty and too short (note the pair-wise
pad: an odd deviation leaves the frame one byte short). -/
def fixSize (frame : List Byte) (expected : ℕ) : List Byte :=
  if frame.length = expected then frame
  else if expected < frame.length then frame.take expected
  else if 0 < frame.length then
    frame ++ List.replicate (2 * ((expected - frame.length) / 2)) (0 : Byte)
  else frame

/-- The per-frame transform of the capture path in
`AiRealtimeCall._audio_io_loop` (app_ai_realtime_call.py 411-447): stage 1
resamples a complete capture frame from the file rate to the call rate and
corrects its size when the rates differ; stage 2 resamples to the fixed
24000 Hz OpenAI rate and corrects to `24000 * 2 // 50 = 960` bytes when the
call rate differs from 24000.  The result is passed to `send_pcm` iff it is
non-empty. -/
def prepare_frame (fileRate callRate : ℕ) (frame : List Byte) : List Byte :=
  let atCall :=
    if fileRate ≠ callRate then
      fixSize (resample_pcm frame fileRate callRate) (callRate * 2 / 50)
    else frame
  if callRate ≠ 24000 then
    fixSize (resample_pcm atCall callRate 24000) (24000 * 2 / 50)
  else atCall

end AppAiRealtimeCall

/-- The operations performed on `AiRealtimeCall._pending_responses` by the two
threads: the IO loop enqueues `(pcm, response_counter)` and increments the
counter (app_ai_realtime_call.py 502-509; the queue is unbounded, so the
`put` never fails), and `process_pending_responses` drains the whole queue
FIFO via `get_nowait` (app_ai_realtime_call.py 646-656). -/
inductive PendingOp where
  | enq (pcm : List Byte)
  | deqAll

/-- State of the pending-response handoff: the queue contents, the IO loop's
`response_counter`, and the responses handed to playback so far (in playback
order). -/
structure PendingState where
  pending : List (List Byte × ℕ)
  counter : ℕ
  played : List (List Byte × ℕ)
deriving DecidableEq

/-- One pending-response operation. -/
def pendingStep (s : PendingState) : PendingOp → PendingState
  | .enq pcm => ⟨s.pending ++ [(pcm, s.counter)], s.counter + 1, s.played⟩
  | .deqAll => ⟨[], s.counter, s.played ++ s.pending⟩

/-- Run a sequence of pending-response operations from the start of a bridge
session (`response_counter = 0`, empty queue). -/
def run_pending (ops : List PendingOp) : PendingState :=
  ops.foldl pendingStep ⟨[], 0, []⟩

/-- Invariant of the VAD state maintained by the `_main` loop: while no
speech has been detected the buffer is empty (pre-speech silent chunks are
never appended), and once speech is detected the buffer starts with the
non-silent chunk that opened it. -/
def VadInv (cfg : VadConfig) (v : VadState) : Prop :=
  (v.speechDetected = false → v.audioBuffer = []) ∧
  (v.speechDetected = true →
    ∃ c rest, v.audioBuffer = c ++ rest ∧
      WhisperAssistantBridge.is_silent_chunk cfg c = false)

theorem pyTrunc_natMulDiv (n dst src : ℕ) (hsrc : 0 < src) :
    (pyTrunc ((n : ℚ) * ((dst : ℚ) / (src : ℚ)))).toNat = n * dst / src := by
  have hq : (n : ℚ) * ((dst : ℚ) / (src : ℚ)) = ((n * dst : ℕ) : ℚ) / ((src : ℕ) : ℚ) := by
    push_cast
    ring
  have hnn : 0 ≤ (n : ℚ) * ((dst : ℚ) / (src : ℚ)) := by positivity
  rw [pyTrunc, if_pos hnn, hq, Int.floor_toNat, Nat.floor_div_nat, Nat.floor_natCast]

theorem pyTrunc_intCast (z : ℤ) : pyTrunc (z : ℚ) = z := by
  rw [pyTrunc]
  rcases le_or_lt 0 (z : ℚ) with h | h
  · rw [if_pos h, Int.floor_intCast]
  · rw [if_neg (not_le.2 h), Int.ceil_intCast]

theorem decodeSample_range (lo hi : Byte) :
    -32768 ≤ decodeSample lo hi ∧ decodeSample lo hi ≤ 32767 := by
  have hlo : (lo : ℕ) < 256 := lo.isLt
  have hhi : (hi : ℕ) < 256 := hi.isLt
  simp only [decodeSample]
  split <;> omega

theorem packSamples_length (samples : List ℤ) :
    (packSamples samples).length = 2 * samples.length := by
  induction samples with
  | nil => rfl
  | cons s rest ih =>
    simp [packSamples, encodeSample, List.flatten] at ih ⊢
    omega

theorem resample_pcm_length_W (pcm : List Byte) (src dst : ℕ) (hsrc : 0 < src)
    (hne : src ≠ dst) (h2 : 2 ≤ pcm.length) (heven : pcm.length % 2 = 0) :
    (WhisperAssistantBridge.resample_pcm pcm src dst).length =
      if pcm.length / 2 * dst / src = 0 then pcm.length
      else 2 * (pcm.length / 2 * dst / src) := by
  unfold WhisperAssistantBridge.resample_pcm
  rw [if_neg hne, if_neg (by omega : ¬ pcm.length < 2),
    if_neg (by omega : ¬ pcm.length % 2 ≠ 0)]
  simp only
  rw [pyTrunc_natMulDiv _ _ _ hsrc]
  split_ifs with h
  · rfl
  · rw [packSamples_length, List.length_map, List.length_range]

theorem interpSampleW_single (s : ℤ) (hlo : -32768 ≤ s) (hhi : s ≤ 32767)
    (ratio : ℚ) : interpSampleW [s] 1 ratio 0 = s := by
  have hz : pyTrunc (((0 : ℕ) : ℚ) / ratio) = 0 := by
    rw [Nat.cast_zero, zero_div]
    simpa using pyTrunc_intCast 0
  simp only [interpSampleW, interpIdx, hz]
  rw [if_pos (by norm_num : ((1 : ℕ) : ℤ) - 1 ≤ 0)]
  norm_num
  rw [pyTrunc_intCast]
  omega

theorem encodeSample_decodeSample (lo hi : Byte) :
    encodeSample (decodeSample lo hi) = [lo, hi] := by
  have hlo : (lo : ℕ) < 256 := lo.isLt
  have hhi : (hi : ℕ) < 256 := hi.isLt
  unfold decodeSample encodeSample
  by_cases h : ((lo : ℤ) + 256 * (hi : ℤ)) < 32768
  · simp only [h, if_true]
    have hmod : (((lo : ℤ) + 256 * (hi : ℤ)) % 65536) = (lo : ℤ) + 256 * (hi : ℤ) := by
      omega
    rw [hmod]
    have htn : ((lo : ℤ) + 256 * (hi : ℤ)).toNat = (lo : ℕ) + 256 * (hi : ℕ) := by
      omega
    rw [htn]
    have h1 : ((lo : ℕ) + 256 * (hi : ℕ)) % 256 = (lo : ℕ) := by omega
    have h2 : ((lo : ℕ) + 256 * (hi : ℕ)) / 256 = (hi : ℕ) := by omega
    rw [h1, h2]
    simp [mkByte, Fin.ext_iff, Nat.mod_eq_of_lt hlo, Nat.mod_eq_of_lt hhi]
  · simp only [h, if_false]
    have hmod : (((lo : ℤ) + 256 * (hi : ℤ) - 65536) % 65536)
        = (lo : ℤ) + 256 * (hi : ℤ) := by
      omega
    rw [hmod]
    have htn : ((lo : ℤ) + 256 * (hi : ℤ)).toNat = (lo : ℕ) + 256 * (hi : ℕ) := by
      omega
    rw [htn]
    have h1 : ((lo : ℕ) + 256 * (hi : ℕ)) % 256 = (lo : ℕ) := by omega
    have h2 : ((lo : ℕ) + 256 * (hi : ℕ)) / 256 = (hi : ℕ) := by omega
    rw [h1, h2]
    simp [mkByte, Fin.ext_iff, Nat.mod_eq_of_lt hlo, Nat.mod_eq_of_lt hhi]

/-- C2 (counterexample): the claim "the output contains exactly
`round(N * dst_rate / src_rate)` samples" fails at the 3-sample input
`b"\x01\x00\x01\x00\x01\x00"` with `src_rate = 16000, dst_rate = 8000`:
the code truncates `int(3 * 0.5) = 1` and emits 2 bytes, while
`round(3 * 8000 / 16000) = round(1.5) = 2` samples would be 4 bytes. -/
theorem c2_round_counterexample :
    (WhisperAssistantBridge.resample_pcm [1, 0, 1, 0, 1, 0] 16000 8000).length = 2 ∧
    2 * (pyRound ((3 : ℚ) * 8000 / 16000)).toNat = 4 := by
  with_unfolding_all decide

/-- C2 (amended): for every PCM16 mono input with at least 2 samples and
`src_rate ≠ dst_rate` (rates positive), the output of the resampling
primitive contains exactly `floor(N * dst_rate / src_rate)` samples — the
code truncates with `int(...)`, it does not round — except that when that
floor is 0 the input is returned unchanged. -/
theorem c2_resample_output_length (pcm : List Byte) (src dst : ℕ)
    (hsrc : 0 < src) (hne : src ≠ dst) (hN : 4 ≤ pcm.length)
    (heven : pcm.length % 2 = 0) :
    (WhisperAssistantBridge.resample_pcm pcm src dst).length =
      if pcm.length / 2 * dst / src = 0 then pcm.length
      else 2 * (pcm.length / 2 * dst / src) :=
  resample_pcm_length_W pcm src dst hsrc hne (by omega) heven

/-- C2 (witness): the amended statement at the 2-sample input `[1,0,1,0]`
upsampled 8000 → 16000, where the output must hold 4 samples (8 bytes). -/
theorem c2_resample_output_length_witness :
    (WhisperAssistantBridge.resample_pcm [1, 0, 1, 0] 8000 16000).length =
      if ([1, 0, 1, 0] : List Byte).length / 2 * 16000 / 8000 = 0
      then ([1, 0, 1, 0] : List Byte).length
      else 2 * (([1, 0, 1, 0] : List Byte).length / 2 * 16000 / 8000) :=
  c2_resample_output_length [1, 0, 1, 0] 8000 16000 (by decide) (by decide)
    (by decide) (by decide)

/-- C4 (counterexample): the claim "an input with fewer than 2 samples is
returned unchanged for every pair of distinct rates" fails at the
single-sample input `b"\x01\x00"` with `src_rate = 8000, dst_rate = 16000`:
the code computes `out_len = int(1 * 2) = 2` and duplicates the sample,
returning 4 bytes instead of the 2-byte input. -/
theorem c4_single_sample_counterexample :
    WhisperAssistantBridge.resample_pcm [1, 0] 8000 16000 ≠ [1, 0] := by
  with_unfolding_all decide

/-- C4 (amended): degenerate inputs to the resampling primitive pass through
unchanged in exactly these cases: the empty byte string always; an odd-length
byte string always; a single-sample (2-byte) input only when
`dst_rate < 2 * src_rate` (so the truncated output length is at most one
sample) — a single sample with `dst_rate ≥ 2 * src_rate` is instead expanded
by duplication. -/
theorem c4_degenerate_inputs (pcm : List Byte) (src dst : ℕ) (hsrc : 0 < src)
    (hne : src ≠ dst) :
    (pcm = [] → WhisperAssistantBridge.resample_pcm pcm src dst = pcm) ∧
    (pcm.length % 2 = 1 → WhisperAssistantBridge.resample_pcm pcm src dst = pcm) ∧
    (pcm.length = 2 → dst < 2 * src →
      WhisperAssistantBridge.resample_pcm pcm src dst = pcm) := by
  refine ⟨?_, ?_, ?_⟩
  · intro h
    subst h
    simp [WhisperAssistantBridge.resample_pcm, hne]
  · intro hodd
    unfold WhisperAssistantBridge.resample_pcm
    rw [if_neg hne]
    by_cases hl : pcm.length < 2
    · rw [if_pos hl]
    · rw [if_neg hl, if_pos (by omega : pcm.length % 2 ≠ 0)]
  · intro hlen hdst
    match pcm, hlen with
    | [b0, b1], _ =>
      unfold WhisperAssistantBridge.resample_pcm
      rw [if_neg hne, if_neg (by norm_num), if_neg (by norm_num)]
      simp only
      rw [show ([b0, b1] : List Byte).length / 2 = 1 by simp,
        pyTrunc_natMulDiv 1 dst src hsrc, one_mul]
      have hdiv : dst / src < 2 := (Nat.div_lt_iff_lt_mul hsrc).2 (by omega)
      rcases Nat.le_one_iff_eq_zero_or_eq_one.1 (Nat.lt_succ_iff.1 hdiv) with h0 | h1
      · rw [if_pos h0]
      · rw [if_neg (by simp [h1]), h1,
          show List.range 1 = [0] from rfl, List.map_cons, List.map_nil]
        have hup : unpackSamples [b0, b1] = [decodeSample b0 b1] := rfl
        have hr := decodeSample_range b0 b1
        rw [hup, interpSampleW_single _ hr.1 hr.2]
        show encodeSample (decodeSample b0 b1) ++ [] = _
        rw [encodeSample_decodeSample, List.append_nil]

/-- C4 (witness): the amended statement at concrete inputs — the empty input
and an odd-length input at 8000 → 16000, and the single-sample input `[5,1]`
downsampled 16000 → 8000 (output length truncates to 0, so it passes
through). -/
theorem c4_degenerate_inputs_witness :
    WhisperAssistantBridge.resample_pcm [] 8000 16000 = [] ∧
    WhisperAssistantBridge.resample_pcm [7, 7, 7] 8000 16000 = [7, 7, 7] ∧
    WhisperAssistantBridge.resample_pcm [5, 1] 16000 8000 = [5, 1] :=
  ⟨(c4_degenerate_inputs [] 8000 16000 (by decide) (by decide)).1 rfl,
   (c4_degenerate_inputs [7, 7, 7] 8000 16000 (by decide) (by decide)).2.1 (by decide),
   (c4_degenerate_inputs [5, 1] 16000 8000 (by decide) (by decide)).2.2 (by decide) (by decide)⟩

/-- C6 (counterexample): the two `_resample_pcm` implementations are not
extensionally equal: on input `b"\x00\x00\x03\x00"` (samples `[0, 3]`)
upsampled 8000 → 16000, the interpolated value at output index 1 is `1.5`;
`WhisperAssistantBridge._resample_pcm` truncates it to 1 while the
module-level `_resample_pcm` rounds it (half to even) to 2. -/
theorem c6_not_extensionally_equal :
    WhisperAssistantBridge.resample_pcm [0, 0, 3, 0] 8000 16000 ≠
      AppAiRealtimeCall.resample_pcm [0, 0, 3, 0] 8000 16000 := by
  with_unfolding_all decide

/-- C6 (amended): the two implementations share every branch condition and
the output sample count — their outputs have identical byte length on every
input and every rate pair — but they differ in the final per-sample
arithmetic (truncation toward zero plus int16 clamping versus round half to
even without clamping), so they are not byte-for-byte equal. -/
theorem c6_lengths_agree (pcm : List Byte) (src dst : ℕ) :
    (WhisperAssistantBridge.resample_pcm pcm src dst).length =
      (AppAiRealtimeCall.resample_pcm pcm src dst).length := by
  simp only [WhisperAssistantBridge.resample_pcm, AppAiRealtimeCall.resample_pcm]
  split_ifs <;>
    simp [packSamples_length, List.length_map, List.length_range]

/-- C9: in the segmented bridge, a segment whose transcription comes back
empty or whitespace-only is discarded before anything else happens: no chat
(reasoning) call, no synthesis call, and the bridge state — conversation
history and output queue — is exactly unchanged. -/
theorem c9_blank_transcript_discards_segment (o : ProviderOracle) (rate : ℕ)
    (st : BridgeState) (audio : List Byte)
    (h : pyStrip (o.transcribeResult audio) = "") :
    WhisperAssistantBridge.process_speech o rate st audio = ⟨st, false, false⟩ := by
  simp only [WhisperAssistantBridge.process_speech]
  rw [if_pos (Or.inr h)]

/-- C9 (witness): a mocked transcription returning whitespace leaves the
conversation `[system]` untouched and makes no chat or synthesis call. -/
theorem c9_blank_transcript_witness :
    pyStrip ((⟨fun _ => "  ", fun _ => "reply", fun _ => [1]⟩ :
        ProviderOracle).transcribeResult [1, 2]) = "" ∧
    WhisperAssistantBridge.process_speech
        ⟨fun _ => "  ", fun _ => "reply", fun _ => [1]⟩ 8000
        ⟨[⟨Role.system, "sys"⟩], []⟩ [1, 2] =
      ⟨⟨[⟨Role.system, "sys"⟩], []⟩, false, false⟩ :=
  ⟨by decide,
   c9_blank_transcript_discards_segment _ 8000 ⟨[⟨Role.system, "sys"⟩], []⟩ [1, 2]
     (by decide)⟩

/-- C1 (counterexample): the claim "empty reasoning completion leaves the
conversation history exactly as it was before the segment" fails: with a
non-empty transcript "hi" and a chat completion returning `""`, the code has
already appended the user turn (whisper_assistant.py 312) and does not remove
it, so the history differs from its pre-segment value (while indeed no
synthesis call is made). -/
theorem c1_history_counterexample :
    (WhisperAssistantBridge.process_speech
        ⟨fun _ => "hi", fun _ => "", fun _ => [1]⟩ 8000
        ⟨[⟨Role.system, "sys"⟩], []⟩ [1, 2]).state.messages ≠
      [⟨Role.system, "sys"⟩] ∧
    (WhisperAssistantBridge.process_speech
        ⟨fun _ => "hi", fun _ => "", fun _ => [1]⟩ 8000
        ⟨[⟨Role.system, "sys"⟩], []⟩ [1, 2]).ttsCalled = false := by
  decide

/-- C1 (amended): for a segment with a non-empty transcript whose reasoning
completion returns the empty string, the processing step makes no synthesis
call, appends no assistant turn and leaves the output queue unchanged, but
the user turn holding the transcript remains appended: the conversation
history after the segment is exactly the old history plus that one user
turn (not the unchanged pre-segment history). -/
theorem c1_empty_completion_keeps_user_turn (o : ProviderOracle) (rate : ℕ)
    (st : BridgeState) (audio : List Byte)
    (ht : pyStrip (o.transcribeResult audio) ≠ "")
    (hc : o.chatResult
        (st.messages ++ [⟨Role.user, o.transcribeResult audio⟩]) = "") :
    WhisperAssistantBridge.process_speech o rate st audio =
      ⟨⟨st.messages ++ [⟨Role.user, o.transcribeResult audio⟩], st.outputQ⟩,
        true, false⟩ := by
  have ht' : o.transcribeResult audio ≠ "" := by
    intro h
    apply ht
    rw [h]
    rfl
  simp only [WhisperAssistantBridge.process_speech]
  rw [if_neg (fun h => h.elim ht' ht), if_pos hc]

/-- C1 (witness): the amended statement with transcript "hi" and an empty
completion over the one-turn history. -/
theorem c1_empty_completion_witness :
    WhisperAssistantBridge.process_speech
        ⟨fun _ => "hi", fun _ => "", fun _ => [1]⟩ 8000
        ⟨[⟨Role.system, "sys"⟩], []⟩ [1, 2] =
      ⟨⟨[⟨Role.system, "sys"⟩, ⟨Role.user, "hi"⟩], []⟩, true, false⟩ :=
  c1_empty_completion_keeps_user_turn _ 8000 ⟨[⟨Role.system, "sys"⟩], []⟩ [1, 2]
    (by decide) (by decide)

/-- C3 (counterexample): the claim "operations after stop check the stop
signal first and no-op" fails: with the stop event set, `send_pcm` of a
non-empty frame onto an empty (hence non-full) queue still enqueues it, and
`recv_pcm` still removes the available chunk. -/
theorem c3_stop_counterexample :
    send_pcm 100 true [] [0] ≠ [] ∧ (recv_pcm true [[0]]).2 ≠ [[0]] := by
  decide

/-- C3 (amended): the operations `send_pcm` and `recv_pcm` never consult the stop event —
their behaviour is identical whether or not `stop()` has been signaled — and
in particular a `send_pcm` call made after stop with non-empty data and a
non-full queue still appends the frame to the input queue (only the
background worker loops check the stop event). -/
theorem c3_ops_ignore_stop (maxsize : ℕ) (stop : Bool) (q : List (List Byte))
    (data : List Byte) :
    send_pcm maxsize stop q data = send_pcm maxsize false q data ∧
    recv_pcm stop q = recv_pcm false q ∧
    (data ≠ [] → q.length < maxsize →
      send_pcm maxsize stop q data = q ++ [data]) := by
  refine ⟨rfl, rfl, fun hd hq => ?_⟩
  unfold send_pcm
  rw [if_neg hd, if_pos hq]

/-- C3 (witness): after stop, sending a frame onto a one-element queue of
bound 100 appends it. -/
theorem c3_ops_ignore_stop_witness :
    send_pcm 100 true [[1]] [2] = [[1], [2]] :=
  (c3_ops_ignore_stop 100 true [[1]] [2]).2.2 (by decide) (by decide)

theorem run_pending_foldl_inv (ops : List PendingOp) :
    ∀ s : PendingState,
      s.played.map Prod.snd ++ s.pending.map Prod.snd = List.range s.counter →
      (ops.foldl pendingStep s).played.map Prod.snd ++
          (ops.foldl pendingStep s).pending.map Prod.snd =
        List.range (ops.foldl pendingStep s).counter := by
  induction ops with
  | nil => intro s h; exact h
  | cons op rest ih =>
    intro s h
    rw [List.foldl_cons]
    apply ih
    cases op with
    | enq pcm =>
      simp only [pendingStep, List.map_append, List.map_cons, List.map_nil]
      rw [List.range_succ, ← h]
      simp [List.append_assoc]
    | deqAll =>
      simp only [pendingStep, List.map_append, List.map_nil]
      rw [← h]
      simp

/-- C8: within one bridge session, the sequence indices of the
PendingResponses enqueued by the IO loop together with those already played
form exactly `range response_counter` — so enqueued indices are strictly
increasing — and the playback path consumes them FIFO: for every interleaving
of enqueue and drain operations, the sequence of indices handed to playback
is pairwise strictly increasing and duplicate-free (each response consumed
exactly once). -/
theorem c8_pending_fifo_strictly_increasing (ops : List PendingOp) :
    ((run_pending ops).played.map Prod.snd ++
        (run_pending ops).pending.map Prod.snd =
      List.range (run_pending ops).counter) ∧
    List.Pairwise (· < ·) ((run_pending ops).played.map Prod.snd) ∧
    ((run_pending ops).played.map Prod.snd).Nodup := by
  have h : (run_pending ops).played.map Prod.snd ++
      (run_pending ops).pending.map Prod.snd =
      List.range (run_pending ops).counter :=
    run_pending_foldl_inv ops ⟨[], 0, []⟩ (by simp)
  have hsub : List.Sublist ((run_pending ops).played.map Prod.snd)
      (List.range (run_pending ops).counter) := by
    rw [← h]
    exact List.sublist_append_left _ _
  have hpw : List.Pairwise (· < ·) ((run_pending ops).played.map Prod.snd) :=
    (List.pairwise_lt_range _).sublist hsub
  exact ⟨h, hpw, hpw.imp Nat.ne_of_lt⟩

/-- C5 (counterexample): the claim "every completed segment of at least 300ms
of audio is forwarded to processing" fails at a segment of exactly 300 ms:
with sample rate 10 and silence window 200 ms, a loud 1-sample chunk followed
by two silent 1-sample chunks completes a 6-byte segment whose duration is
exactly 300 ms (`6 = 10 * 2 * 0.3`), yet the strict `>` comparison discards
it — no transcription call is made. -/
theorem c5_exact_300ms_counterexample :
    (WhisperAssistantBridge.main_step ⟨fun _ => "t", fun _ => "r", fun _ => [1]⟩
        ⟨10, 200, defaultSilenceCutoffSq⟩
        (WhisperAssistantBridge.run_main ⟨fun _ => "t", fun _ => "r", fun _ => [1]⟩
          ⟨10, 200, defaultSilenceCutoffSq⟩
          (WhisperAssistantBridge.initState "sys") [[0, 100], [0, 0]])
        [0, 0]).extracted = some [0, 100, 0, 0, 0, 0] ∧
    (([0, 100, 0, 0, 0, 0] : List Byte).length : ℚ) = (10 : ℚ) * 2 * (3 / 10) ∧
    (WhisperAssistantBridge.main_step ⟨fun _ => "t", fun _ => "r", fun _ => [1]⟩
        ⟨10, 200, defaultSilenceCutoffSq⟩
        (WhisperAssistantBridge.run_main ⟨fun _ => "t", fun _ => "r", fun _ => [1]⟩
          ⟨10, 200, defaultSilenceCutoffSq⟩
          (WhisperAssistantBridge.initState "sys") [[0, 100], [0, 0]])
        [0, 0]).sttCalled = none := by
  with_unfolding_all decide

/-- C5 (amended): on a completed VAD segment (trigger fired, `_processing`
false), the buffered audio is extracted and the VAD reset in every case, and
the segment is forwarded to processing (transcription called on exactly that
audio) iff its byte length strictly exceeds `sample_rate * 2 * 0.3`
(strictly more than 300 ms); a segment of 300 ms or less is consumed
silently: no transcription call and the bridge state (conversation history
and output queue) unchanged. -/
theorem c5_min_segment_gate (o : ProviderOracle) (cfg : VadConfig)
    (st : MainState) (chunk : List Byte) (hch : chunk ≠ [])
    (htrig : (WhisperAssistantBridge.process_vad cfg st.vad chunk).2 = true)
    (hproc : st.processing = false) :
    (WhisperAssistantBridge.main_step o cfg st chunk).extracted =
      some (WhisperAssistantBridge.process_vad cfg st.vad chunk).1.audioBuffer ∧
    (((cfg.sampleRate : ℚ) * 2 * (3 / 10) <
        (((WhisperAssistantBridge.process_vad cfg st.vad chunk).1.audioBuffer).length : ℚ)) →
      (WhisperAssistantBridge.main_step o cfg st chunk).sttCalled =
        some (WhisperAssistantBridge.process_vad cfg st.vad chunk).1.audioBuffer) ∧
    (¬ ((cfg.sampleRate : ℚ) * 2 * (3 / 10) <
        (((WhisperAssistantBridge.process_vad cfg st.vad chunk).1.audioBuffer).length : ℚ)) →
      (WhisperAssistantBridge.main_step o cfg st chunk).sttCalled = none ∧
      (WhisperAssistantBridge.main_step o cfg st chunk).chatCalled = false ∧
      (WhisperAssistantBridge.main_step o cfg st chunk).ttsCalled = false ∧
      (WhisperAssistantBridge.main_step o cfg st chunk).state.bridge = st.bridge) := by
  by_cases hthr : (cfg.sampleRate : ℚ) * 2 * (3 / 10) <
      (((WhisperAssistantBridge.process_vad cfg st.vad chunk).1.audioBuffer).length : ℚ)
  · refine ⟨?_, fun _ => ?_, fun h => absurd hthr h⟩ <;>
      simp [WhisperAssistantBridge.main_step, hch, htrig, hproc, hthr]
  · refine ⟨?_, fun h => absurd h hthr, fun _ => ⟨?_, ?_, ?_, ?_⟩⟩ <;>
      simp [WhisperAssistantBridge.main_step, hch, htrig, hproc, hthr]

/-- C5 (witness): a triggering silent chunk completing a 6-byte segment at
sample rate 10 (exactly 300 ms, so not strictly above the gate) is extracted
but not forwarded, and the bridge state is untouched. -/
theorem c5_min_segment_gate_witness :
    (WhisperAssistantBridge.main_step ⟨fun _ => "t", fun _ => "r", fun _ => [1]⟩
        ⟨10, 200, defaultSilenceCutoffSq⟩
        ⟨⟨true, 100, [0, 100, 0, 0]⟩, ⟨[⟨Role.system, "sys"⟩], []⟩, false⟩
        [0, 0]).sttCalled = none ∧
    (WhisperAssistantBridge.main_step ⟨fun _ => "t", fun _ => "r", fun _ => [1]⟩
        ⟨10, 200, defaultSilenceCutoffSq⟩
        ⟨⟨true, 100, [0, 100, 0, 0]⟩, ⟨[⟨Role.system, "sys"⟩], []⟩, false⟩
        [0, 0]).state.bridge = ⟨[⟨Role.system, "sys"⟩], []⟩ := by
  have h := c5_min_segment_gate ⟨fun _ => "t", fun _ => "r", fun _ => [1]⟩
    ⟨10, 200, defaultSilenceCutoffSq⟩
    ⟨⟨true, 100, [0, 100, 0, 0]⟩, ⟨[⟨Role.system, "sys"⟩], []⟩, false⟩
    [0, 0] (by decide) (by with_unfolding_all decide) rfl
  have h3 := h.2.2 (by with_unfolding_all decide)
  exact ⟨h3.1, h3.2.2.2⟩

theorem resample_pcm_A_nil (src dst : ℕ) :
    AppAiRealtimeCall.resample_pcm [] src dst = [] := by
  rcases eq_or_ne src dst with h | h <;>
    simp [AppAiRealtimeCall.resample_pcm, h]

theorem resample_pcm_A_length_even (pcm : List Byte) (src dst : ℕ)
    (h : pcm.length % 2 = 0) :
    (AppAiRealtimeCall.resample_pcm pcm src dst).length % 2 = 0 := by
  simp only [AppAiRealtimeCall.resample_pcm]
  split_ifs <;> first
  | exact h
  | (rw [packSamples_length]; omega)

theorem resample_pcm_A_ne_nil (pcm : List Byte) (src dst : ℕ) (h : pcm ≠ []) :
    AppAiRealtimeCall.resample_pcm pcm src dst ≠ [] := by
  simp only [AppAiRealtimeCall.resample_pcm]
  split_ifs with h1 h2 h3 h4
  · exact h
  · exact h
  · exact h
  · exact h
  · intro heq
    have hl := congrArg List.length heq
    rw [packSamples_length, List.length_map, List.length_range,
      List.length_nil] at hl
    omega

theorem fixSize_nil (e : ℕ) : AppAiRealtimeCall.fixSize [] e = [] := by
  unfold AppAiRealtimeCall.fixSize
  split_ifs <;> simp_all

theorem fixSize_length (l : List Byte) (e : ℕ) (hl : l.length % 2 = 0)
    (he : e % 2 = 0) (hne : l ≠ []) :
    (AppAiRealtimeCall.fixSize l e).length = e := by
  unfold AppAiRealtimeCall.fixSize
  split_ifs with h1 h2 h3
  · exact h1
  · rw [List.length_take]
    omega
  · rw [List.length_append, List.length_replicate]
    omega
  · exact absurd (List.length_eq_zero.mp (by omega)) hne

/-- C7 (counterexample): the claim "any resampled frame whose size deviates
from the stage's expected size is truncated or zero-padded to exactly that
size" fails when the deviation is odd: at file rate = call rate = 25 a
complete capture frame is 1 byte (`25 * 2 // 50`); upsampling it to 24000 Hz
passes the odd-length byte through unchanged, and the pad
`b'\x00\x00' * (959 // 2)` then yields a 959-byte frame — one byte short of
960 — which is non-empty and therefore forwarded to `send_pcm`. -/
theorem c7_odd_pad_counterexample :
    ([7] : List Byte).length = 25 * 2 / 50 ∧
    AppAiRealtimeCall.prepare_frame 25 25 [7] ≠ [] ∧
    (AppAiRealtimeCall.prepare_frame 25 25 [7]).length = 959 := by
  have h1 : AppAiRealtimeCall.resample_pcm [7] 25 24000 = [7] := by
    with_unfolding_all decide
  have h2 : AppAiRealtimeCall.prepare_frame 25 25 [7] =
      [7] ++ List.replicate 958 (0 : Byte) := by
    simp only [AppAiRealtimeCall.prepare_frame]
    rw [if_neg (show ¬ ((25 : ℕ) ≠ 25) by norm_num),
      if_pos (show (25 : ℕ) ≠ 24000 by norm_num), h1]
    unfold AppAiRealtimeCall.fixSize
    norm_num
  refine ⟨by decide, ?_, ?_⟩
  · rw [h2]
    intro hfalse
    have hlenf := congrArg List.length hfalse
    rw [List.length_append, List.length_replicate, List.length_nil] at hlenf
    exact absurd hlenf (by decide)
  · rw [h2, List.length_append, List.length_replicate]
    decide

/-- C7 (amended): in the frame reader loop, provided the per-stage frame
sizes are even — `file_rate * 2 // 50` and `call_rate * 2 // 50` both even,
which holds for every standard rate divisible by 25 — every complete capture
frame that survives the two resampling stages non-empty is forwarded with
byte length exactly `24000 * 2 // 50 = 960`; with an odd stage size the
pair-wise zero-pad can instead leave a frame one byte short. -/
theorem c7_prepared_frame_size (fileRate callRate : ℕ) (frame : List Byte)
    (hfr : 0 < fileRate) (hcr : 0 < callRate)
    (hlen : frame.length = fileRate * 2 / 50)
    (hEf : (fileRate * 2 / 50) % 2 = 0) (hEc : (callRate * 2 / 50) % 2 = 0) :
    AppAiRealtimeCall.prepare_frame fileRate callRate frame ≠ [] →
    (AppAiRealtimeCall.prepare_frame fileRate callRate frame).length = 960 := by
  intro hne
  have hfeven : frame.length % 2 = 0 := by rw [hlen]; exact hEf
  simp only [AppAiRealtimeCall.prepare_frame] at hne ⊢
  set A := (if fileRate ≠ callRate then
      AppAiRealtimeCall.fixSize
        (AppAiRealtimeCall.resample_pcm frame fileRate callRate)
        (callRate * 2 / 50)
    else frame) with hA
  have hAeven : A.length % 2 = 0 := by
    rw [hA]
    split_ifs with h
    · by_cases hrnil : AppAiRealtimeCall.resample_pcm frame fileRate callRate = []
      · rw [hrnil, fixSize_nil]
        simp
      · rw [fixSize_length _ _ (resample_pcm_A_length_even _ _ _ hfeven) hEc hrnil]
        exact hEc
    · exact hfeven
  by_cases hcall : callRate ≠ 24000
  · rw [if_pos hcall] at hne ⊢
    by_cases hAnil : A = []
    · rw [hAnil, resample_pcm_A_nil, fixSize_nil] at hne
      exact absurd rfl hne
    · have hr2 : AppAiRealtimeCall.resample_pcm A callRate 24000 ≠ [] :=
        resample_pcm_A_ne_nil _ _ _ hAnil
      rw [fixSize_length _ _ (resample_pcm_A_length_even _ _ _ hAeven)
        (by norm_num) hr2]
  · rw [if_neg hcall] at hne ⊢
    have hc24 : callRate = 24000 := not_ne_iff.mp hcall
    rw [hA] at hne ⊢
    split_ifs at hne ⊢ with h
    · by_cases hrnil : AppAiRealtimeCall.resample_pcm frame fileRate callRate = []
      · rw [hrnil, fixSize_nil] at hne
        exact absurd rfl hne
      · rw [fixSize_length _ _ (resample_pcm_A_length_even _ _ _ hfeven) hEc hrnil,
          hc24]
    · rw [hlen]
      have hfc : fileRate = callRate := not_ne_iff.mp h
      rw [hfc, hc24]

/-- C7 (witness): a 960-byte capture frame at file rate = call rate = 24000
(both stage sizes even) is forwarded with exactly 960 bytes. -/
theorem c7_prepared_frame_size_witness :
    (AppAiRealtimeCall.prepare_frame 24000 24000
        (List.replicate 960 (0 : Byte))).length = 960 :=
  c7_prepared_frame_size 24000 24000 (List.replicate 960 (0 : Byte))
    (by decide) (by decide) (by rw [List.length_replicate]) (by decide)
    (by decide)
    (by rw [show AppAiRealtimeCall.prepare_frame 24000 24000
          (List.replicate 960 (0 : Byte)) = List.replicate 960 (0 : Byte)
          from rfl]
        intro hfalse
        have hlenf := congrArg List.length hfalse
        rw [List.length_replicate, List.length_nil] at hlenf
        exact absurd hlenf (by decide))

theorem process_vad_preserves_inv (cfg : VadConfig) (v : VadState)
    (chunk : List Byte) (h : VadInv cfg v) :
    VadInv cfg (WhisperAssistantBridge.process_vad cfg v chunk).1 := by
  unfold WhisperAssistantBridge.process_vad
  split_ifs with hs hd
  · -- silent chunk while in speech: keep buffering, same decomposition
    refine ⟨fun hf => ?_, fun _ => ?_⟩
    · have hf2 : v.speechDetected = false := hf
      rw [hd] at hf2
      exact Bool.noConfusion hf2
    · obtain ⟨c, rest, hb, hc⟩ := h.2 hd
      refine ⟨c, rest ++ chunk, ?_, hc⟩
      show v.audioBuffer ++ chunk = c ++ (rest ++ chunk)
      rw [hb, List.append_assoc]
  · -- silent chunk while idle: state unchanged, nothing appended
    exact h
  · -- non-silent chunk: enter / stay in speech, append the chunk
    refine ⟨fun hf => Bool.noConfusion (show true = false from hf), fun _ => ?_⟩
    cases hv : v.speechDetected with
    | false =>
      refine ⟨chunk, [], ?_, by simpa using hs⟩
      show v.audioBuffer ++ chunk = chunk ++ []
      rw [h.1 hv, List.nil_append, List.append_nil]
    | true =>
      obtain ⟨c, rest, hb, hc⟩ := h.2 hv
      refine ⟨c, rest ++ chunk, ?_, hc⟩
      show v.audioBuffer ++ chunk = c ++ (rest ++ chunk)
      rw [hb, List.append_assoc]

theorem process_vad_trigger_decomp (cfg : VadConfig) (v : VadState)
    (chunk : List Byte) (hInv : VadInv cfg v)
    (htrig : (WhisperAssistantBridge.process_vad cfg v chunk).2 = true) :
    ∃ c rest,
      (WhisperAssistantBridge.process_vad cfg v chunk).1.audioBuffer = c ++ rest ∧
      WhisperAssistantBridge.is_silent_chunk cfg c = false := by
  unfold WhisperAssistantBridge.process_vad at htrig ⊢
  split_ifs at htrig ⊢ with hs hd
  · obtain ⟨c, rest, hb, hc⟩ := hInv.2 hd
    refine ⟨c, rest ++ chunk, ?_, hc⟩
    show v.audioBuffer ++ chunk = c ++ (rest ++ chunk)
    rw [hb, List.append_assoc]

theorem main_step_preserves_inv (o : ProviderOracle) (cfg : VadConfig)
    (st : MainState) (chunk : List Byte) (h : VadInv cfg st.vad) :
    VadInv cfg (WhisperAssistantBridge.main_step o cfg st chunk).state.vad := by
  simp only [WhisperAssistantBridge.main_step]
  split_ifs with h1 h2 h3
  · exact h
  · exact ⟨fun _ => rfl, fun hf => Bool.noConfusion (show false = true from hf)⟩
  · exact ⟨fun _ => rfl, fun hf => Bool.noConfusion (show false = true from hf)⟩
  · exact process_vad_preserves_inv cfg st.vad chunk h

theorem main_step_extracted_decomp (o : ProviderOracle) (cfg : VadConfig)
    (st : MainState) (chunk : List Byte) (hInv : VadInv cfg st.vad)
    (seg : List Byte)
    (h : (WhisperAssistantBridge.main_step o cfg st chunk).extracted = some seg) :
    ∃ c rest, seg = c ++ rest ∧
      WhisperAssistantBridge.is_silent_chunk cfg c = false := by
  simp only [WhisperAssistantBridge.main_step] at h
  split_ifs at h with h1 h2 h3
  · have h2a : (WhisperAssistantBridge.process_vad cfg st.vad chunk).2 = true := by
      have h2b := h2
      simp only [Bool.and_eq_true] at h2b
      exact h2b.1
    obtain rfl :=
      (Option.some.inj
        (show some (WhisperAssistantBridge.process_vad cfg st.vad chunk).1.audioBuffer
            = some seg from h)).symm
    exact process_vad_trigger_decomp cfg st.vad chunk hInv h2a
  · have h2a : (WhisperAssistantBridge.process_vad cfg st.vad chunk).2 = true := by
      have h2b := h2
      simp only [Bool.and_eq_true] at h2b
      exact h2b.1
    obtain rfl :=
      (Option.some.inj
        (show some (WhisperAssistantBridge.process_vad cfg st.vad chunk).1.audioBuffer
            = some seg from h)).symm
    exact process_vad_trigger_decomp cfg st.vad chunk hInv h2a

/-- C10: every audio segment the segmented pipeline's VAD hands to the
`_main` loop begins with a non-silent, non-empty chunk: a chunk classified
as silent while speech has not yet been detected is never appended to the
segment buffer, so a returned segment always decomposes as a non-silent
first chunk followed by the rest — no pre-speech audio is ever included.
(The hypothesis `0 < silenceCutoffSq` holds for every dBFS threshold, since
`(32768 * 10^(db/20))^2 > 0`.) -/
theorem c10_segments_begin_nonsilent (o : ProviderOracle) (cfg : VadConfig)
    (hcut : 0 < cfg.silenceCutoffSq) (sys : String)
    (chunks : List (List Byte)) (seg : List Byte)
    (hseg : seg ∈ WhisperAssistantBridge.vadSegments o cfg
      (WhisperAssistantBridge.initState sys) chunks) :
    ∃ c rest, seg = c ++ rest ∧
      WhisperAssistantBridge.is_silent_chunk cfg c = false ∧ c ≠ [] := by
  have hnil : ∀ c : List Byte,
      WhisperAssistantBridge.is_silent_chunk cfg c = false → c ≠ [] := by
    intro c hc hcnil
    subst hcnil
    have hsil : WhisperAssistantBridge.is_silent_chunk cfg [] = true := by
      simp [WhisperAssistantBridge.is_silent_chunk,
        WhisperAssistantBridge.computeMeanSq, hcut]
    rw [hsil] at hc
    exact Bool.noConfusion hc
  have main : ∀ (cs : List (List Byte)) (st : MainState), VadInv cfg st.vad →
      ∀ s, s ∈ WhisperAssistantBridge.vadSegments o cfg st cs →
        ∃ c rest, s = c ++ rest ∧
          WhisperAssistantBridge.is_silent_chunk cfg c = false := by
    intro cs
    induction cs with
    | nil =>
      intro st _ s hs
      simp [WhisperAssistantBridge.vadSegments] at hs
    | cons ch rest ih =>
      intro st hInv s hs
      rw [show WhisperAssistantBridge.vadSegments o cfg st (ch :: rest) =
          (WhisperAssistantBridge.main_step o cfg st ch).extracted.toList ++
            WhisperAssistantBridge.vadSegments o cfg
              (WhisperAssistantBridge.main_step o cfg st ch).state rest from rfl,
        List.mem_append] at hs
      rcases hs with hs | hs
      · cases hex : (WhisperAssistantBridge.main_step o cfg st ch).extracted with
        | none =>
          rw [hex] at hs
          simp at hs
        | some a =>
          rw [hex] at hs
          simp only [Option.toList_some, List.mem_singleton] at hs
          subst hs
          exact main_step_extracted_decomp o cfg st ch hInv s hex
      · exact ih (WhisperAssistantBridge.main_step o cfg st ch).state
          (main_step_preserves_inv o cfg st ch hInv) s hs
  obtain ⟨c, rest, hdec, hc⟩ := main chunks (WhisperAssistantBridge.initState sys)
    ⟨fun _ => rfl, fun hf => Bool.noConfusion (show false = true from hf)⟩ seg hseg
  exact ⟨c, rest, hdec, hc, hnil c hc⟩

/-- C10 (witness): feeding a loud chunk and two silent chunks (rate 2 Hz, so
each 1-sample chunk lasts 500 ms) through the `_main` loop from the initial
state produces exactly the segment `[0,100,0,0,0,0]`, and that segment
decomposes with a non-silent first chunk. -/
theorem c10_segments_begin_nonsilent_witness :
    (0 : ℚ) < (⟨2, 1000, defaultSilenceCutoffSq⟩ : VadConfig).silenceCutoffSq ∧
    [0, 100, 0, 0, 0, 0] ∈ WhisperAssistantBridge.vadSegments
      ⟨fun _ => "t", fun _ => "r", fun _ => [1]⟩
      ⟨2, 1000, defaultSilenceCutoffSq⟩
      (WhisperAssistantBridge.initState "sys") [[0, 100], [0, 0], [0, 0]] ∧
    ∃ c rest, ([0, 100, 0, 0, 0, 0] : List Byte) = c ++ rest ∧
      WhisperAssistantBridge.is_silent_chunk
        ⟨2, 1000, defaultSilenceCutoffSq⟩ c = false ∧ c ≠ [] :=
  ⟨by with_unfolding_all decide, by with_unfolding_all decide,
   c10_segments_begin_nonsilent ⟨fun _ => "t", fun _ => "r", fun _ => [1]⟩
     ⟨2, 1000, defaultSilenceCutoffSq⟩ (by with_unfolding_all decide) "sys"
     [[0, 100], [0, 0], [0, 0]] [0, 100, 0, 0, 0, 0]
     (by with_unfolding_all decide)⟩
